import Mathlib

/-!
Verification development for the 8-ball pool lockstep simulation.

Shallow embedding conventions, used consistently below:

* JavaScript numbers are modelled as exact rationals (`ℚ`).  Host math
  functions whose values are not rational (`Math.sqrt`, `Math.cos`,
  `Math.sin`) and the external Rapier physics engine (world construction,
  `world.step`, impulse application) are abstracted as fields of a
  `PhysEngine` record: every run supplies the same record, matching the
  identical-engine-build assumption stated in the spec.
* Comparisons of the form `Math.sqrt d < c` with a nonnegative radicand
  and positive threshold are transcribed in the equivalent squared form
  `d < c * c`, which is exact; the square root value itself is only
  needed inside `applyRollingFriction`, where the abstract `sqrtQ` field
  is used.
* A Rapier `RigidBody` is represented by its observable kinematic state
  inlined into `Ball` (position, linvel, angvel, rotation); freshly
  created dynamic bodies start with zero velocities and the identity
  rotation, as Rapier bodies do.
* Mutation of the `balls` array, of `pocketed` and of `pocketedThisShot`
  is threaded explicitly; fallible code (the missing-cue-ball throw in
  `simulateShot`, JSON parsing in message handlers) is modelled with
  `Option` and an explicit `HandlerOutcome`.
-/

namespace Pool

/-- A 3-vector of exact rationals, modelling a Rapier `Vector3`. -/
structure Vec3 where
  x : ℚ
  y : ℚ
  z : ℚ
deriving DecidableEq

/-- A quaternion, modelling a Rapier rotation `{w, x, y, z}`. -/
structure Quat where
  w : ℚ
  x : ℚ
  y : ℚ
  z : ℚ
deriving DecidableEq

/-- A ball: identity (number, type string) plus the kinematic state of its
rigid body (pool_physics `Ball`, with the body state inlined). -/
structure Ball where
  number : ℤ
  type : String
  position : Vec3
  linvel : Vec3
  angvel : Vec3
  rotation : Quat
deriving DecidableEq

/-- A pocket in pixel coordinates (pool_physics `Pocket`). -/
structure Pocket where
  x : ℚ
  y : ℚ
  radius : ℚ
deriving DecidableEq

/-- Running pocketed state (pool_physics `Pocketed`). -/
structure Pocketed where
  solids : List ℤ
  stripes : List ℤ
  eight : Bool
deriving DecidableEq

/-- Per-shot pocketed tally (pool_physics `PocketedThisShot`). -/
structure PocketedThisShot where
  solids : List ℤ
  stripes : List ℤ
  cueBall : Bool
deriving DecidableEq

/-- A pocketing event handed to the animation layer (pool_physics
`PocketedEvent`). -/
structure PocketedEvent where
  type : String
  number : ℤ
  startX : ℚ
  startY : ℚ
  pocketX : ℚ
  pocketY : ℚ
  rotation : Quat
deriving DecidableEq

/-- Canvas-to-physics scale, pool_physics `SCALE`. -/
def SCALE : ℚ := 5

/-- Fixed timestep, pool_physics and pool_sync `FIXED_DT` (120 Hz). -/
def FIXED_DT : ℚ := 1 / 120

/-- pool_sync `MAX_SIM_STEPS` (30 seconds at 120 Hz). -/
def MAX_SIM_STEPS : ℕ := 120 * 30

/-- physicsConfig `BALL_MASS`. -/
def BALL_MASS : ℚ := 0.17

/-- physicsConfig `ROLLING_FRICTION`. -/
def ROLLING_FRICTION : ℚ := 0.01

/-- Physics-space ball radius, `pixelRadius / SCALE` with `pixelRadius = 12`. -/
def physRadius : ℚ := 12 / SCALE

/-! Turn rules (pool_rules.ts). -/

/-- pool_rules `allBallsStopped`: every ball has planar linear speed below
0.05 and angular speed below 0.1.  The source compares
`Math.sqrt(vx*vx + vz*vz) < 0.05`; the equivalent squared comparison is
used here. -/
def allBallsStopped (balls : List Ball) : Bool :=
  balls.all fun ball =>
    let linvel := ball.linvel
    let angvel := ball.angvel
    let linearSpeed2 := linvel.x * linvel.x + linvel.z * linvel.z
    let angularSpeed2 := angvel.x * angvel.x + angvel.y * angvel.y + angvel.z * angvel.z
    decide (linearSpeed2 < 0.05 * 0.05) && decide (angularSpeed2 < 0.1 * 0.1)

/-- pool_rules `canShoot`: in online mode only on your turn, and every ball
must have full 3D linear speed (y component included) below 0.05 and
angular speed below 0.1.  Squared transcription as in `allBallsStopped`. -/
def canShoot (mode : String) (isMyTurn : Bool) (balls : List Ball) : Bool :=
  if mode == "online" && !isMyTurn then false
  else
    balls.all fun ball =>
      let linvel := ball.linvel
      let angvel := ball.angvel
      let linearSpeed2 := linvel.x * linvel.x + linvel.y * linvel.y + linvel.z * linvel.z
      let angularSpeed2 := angvel.x * angvel.x + angvel.y * angvel.y + angvel.z * angvel.z
      decide (linearSpeed2 < 0.05 * 0.05) && decide (angularSpeed2 < 0.1 * 0.1)

/-- Per-player assigned ball types (`playerTypes` object; `none` models the
TypeScript `null`). -/
structure PlayerTypes where
  player1 : Option String
  player2 : Option String
deriving DecidableEq

/-- Result record of `switchTurn` and `evaluateTurnSwitch`. -/
structure TurnOutcome where
  playerTypes : PlayerTypes
  currentPlayer : ℤ
  isMyTurn : Bool
deriving DecidableEq

/-- pool_rules `switchTurn`: flip the current player, and negate
`isMyTurn` only in online mode. -/
def switchTurn (mode : String) (currentPlayer : ℤ) (isMyTurn : Bool) : ℤ × Bool :=
  let nextPlayer : ℤ := if currentPlayer = 1 then 2 else 1
  (nextPlayer, if mode == "online" then !isMyTurn else isMyTurn)

/-- pool_rules `evaluateTurnSwitch`, transcribed branch by branch. -/
def evaluateTurnSwitch (currentPlayer : ℤ) (mode : String) (isMyTurn : Bool)
    (playerTypes : PlayerTypes) (pocketedThisShot : PocketedThisShot) : TurnOutcome :=
  if pocketedThisShot.cueBall then
    let st := switchTurn mode currentPlayer isMyTurn
    ⟨playerTypes, st.1, st.2⟩
  else
    let currentPlayerType := if currentPlayer = 1 then playerTypes.player1 else playerTypes.player2
    match currentPlayerType with
    | none =>
      if 0 < pocketedThisShot.solids.length then
        let pt : PlayerTypes :=
          if currentPlayer = 1 then ⟨some "solid", some "stripe"⟩ else ⟨some "stripe", some "solid"⟩
        ⟨pt, currentPlayer, isMyTurn⟩
      else if 0 < pocketedThisShot.stripes.length then
        let pt : PlayerTypes :=
          if currentPlayer = 1 then ⟨some "stripe", some "solid"⟩ else ⟨some "solid", some "stripe"⟩
        ⟨pt, currentPlayer, isMyTurn⟩
      else
        let st := switchTurn mode currentPlayer isMyTurn
        ⟨playerTypes, st.1, st.2⟩
    | some t =>
      let pocketedOwn : Bool :=
        if t == "solid" then decide (0 < pocketedThisShot.solids.length)
        else decide (0 < pocketedThisShot.stripes.length)
      if !pocketedOwn then
        let st := switchTurn mode currentPlayer isMyTurn
        ⟨playerTypes, st.1, st.2⟩
      else ⟨playerTypes, currentPlayer, isMyTurn⟩

/-- Game-over verdict. -/
structure GameOverResult where
  winner : ℤ
  reason : String
deriving DecidableEq

/-- Modelled from the spec: `evaluateGameOver` is imported from
pool_rules and exercised by the Game Over unit tests, but its body is not
present under the source tree.  Spec 4.5: if the eight-ball is pocketed,
the shooter (taken to be `currentPlayer`) wins iff a type is assigned to
them and every one of their own seven numbers is already in the pocketed
set, otherwise the opponent wins with reason "Pocketed 8-ball early"; if
types were never assigned the opponent wins by default.  Reason strings
are those asserted by the unit tests. -/
def evaluateGameOver (currentPlayer : ℤ) (playerTypes : PlayerTypes)
    (pocketed : Pocketed) : Option GameOverResult :=
  if pocketed.eight = false then none
  else
    let opponent : ℤ := if currentPlayer = 1 then 2 else 1
    let shooterType := if currentPlayer = 1 then playerTypes.player1 else playerTypes.player2
    match shooterType with
    | none => some ⟨opponent, "Pocketed 8-ball early"⟩
    | some t =>
      let cleared : Bool :=
        if t == "solid" then ([1, 2, 3, 4, 5, 6, 7] : List ℤ).all (pocketed.solids.contains ·)
        else ([9, 10, 11, 12, 13, 14, 15] : List ℤ).all (pocketed.stripes.contains ·)
      if cleared then some ⟨currentPlayer, "Pocketed 8-ball after clearing all own balls"⟩
      else some ⟨opponent, "Pocketed 8-ball early"⟩

/-- The settled-shot sequencing of `PoolGameEngine.onShotSettled`: it first
runs `evaluateTurnSwitch` and installs its result (including the possibly
switched `currentPlayer`), then runs `evaluateGameOver` on the updated
fields.  Network sends and rendering are omitted; the returned pair is the
installed turn outcome and the game-over verdict. -/
def onShotSettledOutcome (mode : String) (currentPlayer : ℤ) (isMyTurn : Bool)
    (playerTypes : PlayerTypes) (pocketedThisShot : PocketedThisShot)
    (pocketed : Pocketed) : TurnOutcome × Option GameOverResult :=
  let result := evaluateTurnSwitch currentPlayer mode isMyTurn playerTypes pocketedThisShot
  (result, evaluateGameOver result.currentPlayer result.playerTypes pocketed)

/-! Physics world construction and per-step post-processing
(pool_physics.ts). -/

/-- pool_physics `setupTable`, pocket list only: six pockets in pixel
coordinates derived from the canvas size (the cushion colliders live in
the abstract engine state). -/
def setupTablePockets (w h : ℚ) : List Pocket :=
  let cushionInset : ℚ := 40
  let pocketRadius : ℚ := 25
  let sidePocketRadius : ℚ := 22
  [⟨cushionInset, cushionInset, pocketRadius⟩,
   ⟨w / 2, cushionInset - 5, sidePocketRadius⟩,
   ⟨w - cushionInset, cushionInset, pocketRadius⟩,
   ⟨cushionInset, h - cushionInset, pocketRadius⟩,
   ⟨w / 2, h - cushionInset + 5, sidePocketRadius⟩,
   ⟨w - cushionInset, h - cushionInset, pocketRadius⟩]

/-- Rack order used by `setupBalls`. -/
def ballOrder : List ℤ := [1, 9, 2, 10, 8, 3, 11, 4, 12, 5, 13, 6, 14, 7, 15]

/-- Row/column cells of the triangular rack, in creation order. -/
def rackCells : List (ℕ × ℕ) :=
  (List.range 5).flatMap fun row => (List.range (row + 1)).map fun col => (row, col)

/-- Ball type from its number, as in `setupBalls`. -/
def ballTypeFor (n : ℤ) : String :=
  if n = 8 then "eight" else if n < 8 then "solid" else "stripe"

/-- pool_physics `setupBalls`: the cue ball at pixel x 300, canvas middle,
then the fifteen numbered balls racked in a triangle at pixel x 900.
Fresh dynamic bodies have zero velocities and identity rotation. -/
def setupBalls (h : ℚ) : List Ball :=
  let cue : Ball := ⟨0, "cue", ⟨300 / SCALE, physRadius, (h / 2) / SCALE⟩,
    ⟨0, 0, 0⟩, ⟨0, 0, 0⟩, ⟨1, 0, 0, 0⟩⟩
  let rackPhysX : ℚ := 900 / SCALE
  let rackPhysZ : ℚ := (h / 2) / SCALE
  let spacing : ℚ := physRadius * 2.05
  let racked := (rackCells.zip ballOrder).map fun rc =>
    let row := rc.1.1
    let col := rc.1.2
    let x := rackPhysX + (row : ℚ) * spacing * 0.866
    let z := rackPhysZ + ((col : ℚ) - (row : ℚ) / 2) * spacing
    (⟨rc.2, ballTypeFor rc.2, ⟨x, physRadius, z⟩, ⟨0, 0, 0⟩, ⟨0, 0, 0⟩, ⟨1, 0, 0, 0⟩⟩ : Ball)
  cue :: racked

/-- Pixel x coordinate of a ball, `pos.x * SCALE`. -/
def ballPixelX (b : Ball) : ℚ := b.position.x * SCALE

/-- Pixel z coordinate of a ball, `pos.z * SCALE`. -/
def ballPixelZ (b : Ball) : ℚ := b.position.z * SCALE

/-- Squared pixel distance from a point to a pocket center.  The source
compares `Math.sqrt(dx*dx + dz*dz) < pocket.radius`; the squared form is
used throughout. -/
def pocketDist2 (px pz : ℚ) (p : Pocket) : ℚ :=
  (px - p.x) * (px - p.x) + (pz - p.y) * (pz - p.y)

/-- First pocket whose capture radius contains the point, as in the
for-loop with break inside `checkPockets`. -/
def findPocketHit (pockets : List Pocket) (px pz : ℚ) : Option Pocket :=
  pockets.find? fun p => decide (pocketDist2 px pz p < p.radius * p.radius)

/-- Out-of-table-bounds fallback test of `checkPockets`. -/
def outOfBounds (w h px pz : ℚ) : Bool :=
  let cushionInset : ℚ := 40
  let pixelRadius : ℚ := 12
  decide (px < cushionInset - pixelRadius) || decide (px > w - cushionInset + pixelRadius) ||
    decide (pz < cushionInset - pixelRadius) || decide (pz > h - cushionInset + pixelRadius)

/-- Whether `checkPockets` treats this ball as pocketed on this step:
within some pocket radius, or outside the table bounds. -/
def ballPocketTest (w h : ℚ) (pockets : List Pocket) (b : Ball) : Bool :=
  (findPocketHit pockets (ballPixelX b) (ballPixelZ b)).isSome ||
    outOfBounds w h (ballPixelX b) (ballPixelZ b)

/-- Nearest pocket (the `reduce` in `checkPockets`), by squared distance. -/
def nearestPocket (pockets : List Pocket) (px pz : ℚ) : Option Pocket :=
  (pockets.foldl
    (fun closest p =>
      let d := pocketDist2 px pz p
      match closest with
      | none => some (p, d)
      | some pr => if d < pr.2 then some (p, d) else some pr)
    none).map (·.1)

/-- Placeholder for the JavaScript `pockets[0]` access on an empty list. -/
def defaultPocket : Pocket := ⟨0, 0, 0⟩

/-- The respawned cue ball: head spot (pixel x 300, canvas middle), zero
velocities, identity rotation, as created inside `checkPockets`. -/
def newCueBall (h : ℚ) : Ball :=
  ⟨0, "cue", ⟨300 / SCALE, physRadius, (h / 2) / SCALE⟩,
    ⟨0, 0, 0⟩, ⟨0, 0, 0⟩, ⟨1, 0, 0, 0⟩⟩

/-- Pocketing event produced for a non-cue pocketed ball. -/
def mkPocketedEvent (b : Ball) (p : Pocket) : PocketedEvent :=
  ⟨b.type, b.number, ballPixelX b, ballPixelZ b, p.x, p.y, b.rotation⟩

/-- Output of `checkPockets`: updated active balls, updated running
pocketed state, updated per-shot tally, and the events of this call. -/
structure CheckPocketsOut where
  balls : List Ball
  pocketed : Pocketed
  pocketedThisShot : PocketedThisShot
  events : List PocketedEvent
deriving DecidableEq

/-- One iteration of the `checkPockets` loop body for ball `b`, given the
result `acc` of processing all later-index balls (the source iterates the
array from the highest index down). -/
def processPocketedBall (w h : ℚ) (pockets : List Pocket) (b : Ball)
    (acc : CheckPocketsOut) : CheckPocketsOut :=
  if ballPocketTest w h pockets b then
    let pocketHit :=
      match findPocketHit pockets (ballPixelX b) (ballPixelZ b) with
      | some p => p
      | none => (nearestPocket pockets (ballPixelX b) (ballPixelZ b)).getD
          (pockets.headD defaultPocket)
    let events :=
      if b.type ≠ "cue" then acc.events ++ [mkPocketedEvent b pocketHit] else acc.events
    if b.type == "cue" then
      ⟨newCueBall h :: acc.balls, acc.pocketed,
        { acc.pocketedThisShot with cueBall := true }, events⟩
    else if b.type == "eight" then
      ⟨acc.balls, { acc.pocketed with eight := true }, acc.pocketedThisShot, events⟩
    else if b.type == "solid" then
      ⟨acc.balls, { acc.pocketed with solids := acc.pocketed.solids ++ [b.number] },
        { acc.pocketedThisShot with solids := acc.pocketedThisShot.solids ++ [b.number] },
        events⟩
    else
      ⟨acc.balls, { acc.pocketed with stripes := acc.pocketed.stripes ++ [b.number] },
        { acc.pocketedThisShot with stripes := acc.pocketedThisShot.stripes ++ [b.number] },
        events⟩
  else ⟨b :: acc.balls, acc.pocketed, acc.pocketedThisShot, acc.events⟩

/-- Recursive core of `checkPockets`: later-index balls are processed
first, matching the descending array iteration of the source. -/
def cpGo (w h : ℚ) (pockets : List Pocket) :
    List Ball → Pocketed → PocketedThisShot → CheckPocketsOut
  | [], pk, pts => ⟨[], pk, pts, []⟩
  | b :: rest, pk, pts => processPocketedBall w h pockets b (cpGo w h pockets rest pk pts)

/-- pool_physics `checkPockets`. -/
def checkPockets (w h : ℚ) (pockets : List Pocket) (balls : List Ball)
    (pocketed : Pocketed) (pocketedThisShot : PocketedThisShot) : CheckPocketsOut :=
  cpGo w h pockets balls pocketed pocketedThisShot

/-- Rolling friction, spin blending and plane clamp for one ball
(pool_physics `applyRollingFriction` loop body).  `sqrtQ` models the host
`Math.sqrt`, needed for the friction scaling factor; threshold
comparisons on the speed are transcribed in squared form. -/
def frictionBall (sqrtQ : ℚ → ℚ) (dt : ℚ) (ball : Ball) : Ball :=
  let linvel := ball.linvel
  let speed2 := linvel.x * linvel.x + linvel.z * linvel.z
  let ball1 :=
    if 0.01 * 0.01 < speed2 then
      let frictionForce := ROLLING_FRICTION * BALL_MASS * 9.81
      let deceleration := frictionForce / BALL_MASS
      let speed := sqrtQ speed2
      let newSpeed := max 0 (speed - deceleration * dt)
      let factor := if 0 < speed then newSpeed / speed else 0
      let ball2 := { ball with linvel := ⟨linvel.x * factor, linvel.y, linvel.z * factor⟩ }
      if 0.05 * 0.05 < speed2 then
        let targetAngVelX := -linvel.z / physRadius
        let targetAngVelZ := linvel.x / physRadius
        let currentAngVel := ball2.angvel
        let blend : ℚ := 0.1
        { ball2 with angvel :=
            ⟨currentAngVel.x * (1 - blend) + targetAngVelX * blend,
             currentAngVel.y * 0.95,
             currentAngVel.z * (1 - blend) + targetAngVelZ * blend⟩ }
      else ball2
    else { ball with linvel := ⟨0, 0, 0⟩, angvel := ⟨0, 0, 0⟩ }
  let pos := ball1.position
  if 0.01 < |pos.y - physRadius| then
    { ball1 with
        position := ⟨pos.x, physRadius, pos.z⟩
        linvel := ⟨ball1.linvel.x, 0, ball1.linvel.z⟩ }
  else ball1

/-- pool_physics `applyRollingFriction`. -/
def applyRollingFriction (sqrtQ : ℚ → ℚ) (balls : List Ball) (dt : ℚ) : List Ball :=
  balls.map (frictionBall sqrtQ dt)

/-! Serialization, hashing and the deterministic shot simulator
(pool_sync.ts). -/

/-- pool_sync `ShotInput`. -/
structure ShotInput where
  angle : ℚ
  power : ℚ
  spinFactor : ℚ
deriving DecidableEq

/-- pool_sync `GameStateSnapshot`.  A serialized `BallState` carries
exactly the fields of our `Ball`, so snapshot balls reuse `Ball`. -/
structure GameStateSnapshot where
  balls : List Ball
  pocketed : Pocketed
deriving DecidableEq

/-- Stable insertion of a ball into a list sorted by number. -/
def insertByNumber (x : Ball) : List Ball → List Ball
  | [] => [x]
  | y :: ys => if x.number ≤ y.number then x :: y :: ys else y :: insertByNumber x ys

/-- pool_sync `serializeBalls`: capture every ball state and sort by ball
number (the source sorts with the comparator `a.number - b.number`). -/
def serializeBalls (balls : List Ball) : List Ball :=
  balls.foldr insertByNumber []

/-- JavaScript `Math.round`: round half toward positive infinity. -/
def jsRound (q : ℚ) : ℤ := ⌊q + 1 / 2⌋

/-- pool_sync `quantize` with the default 6 decimals:
`Math.round(v * 10^6) / 10^6`. -/
def quantize (v : ℚ) : ℚ := (jsRound (v * 1000000) : ℚ) / 1000000

/-- Decimal digit characters of `n`, padded on the left with zeros to
length 6. -/
def padLeft6 (s : List Char) : List Char :=
  List.replicate (6 - s.length) '0' ++ s

/-- JavaScript number-to-string conversion, restricted to the values
`quantize` produces (multiples of 10 ^ -6 of moderate magnitude, where
the shortest round-tripping representation is the plain decimal
expansion with trailing zeros removed).  Off-grid values never arise from
`quantize`; they get a fallback spelling. -/
def numToString (q : ℚ) : String :=
  let k : ℚ := q * 1000000
  if k.den = 1 then
    let n := k.num
    let sign := if n < 0 then "-" else ""
    let a := n.natAbs
    let ip := a / 1000000
    let fp := a % 1000000
    if fp = 0 then sign ++ toString ip
    else
      let fracDigits := ((padLeft6 (Nat.toDigits 10 fp)).reverse.dropWhile (· == '0')).reverse
      sign ++ toString ip ++ "." ++ String.mk fracDigits
  else toString q.num ++ "/" ++ toString q.den

/-- ToUint32 of ECMAScript: the value modulo 2 ^ 32 as a natural. -/
def toUint32 (n : ℤ) : ℕ := (n % (2 ^ 32 : ℤ)).toNat

/-- ToInt32 of ECMAScript: the value modulo 2 ^ 32, taken in
[-2 ^ 31, 2 ^ 31). -/
def toInt32 (n : ℤ) : ℤ :=
  let u := toUint32 n
  if u < 2 ^ 31 then (u : ℤ) else (u : ℤ) - 2 ^ 32

/-- The JavaScript `^` operator on numbers: bitwise xor of the two
ToInt32 images, reinterpreted as a signed 32-bit value. -/
def xor32 (a b : ℤ) : ℤ :=
  toInt32 (Int.ofNat (Nat.xor (toUint32 a) (toUint32 b)))

/-- Round a natural to the nearest multiple of `m`, ties to the even
multiple (the binary64 rounding rule on the dropped low bits). -/
def rne (a m : ℕ) : ℕ :=
  let d := a / m
  let r := a % m
  if 2 * r < m then d * m
  else if m < 2 * r then (d + 1) * m
  else if d % 2 = 0 then d * m else (d + 1) * m

/-- Rounding of an integer to the nearest binary64 value: exact below
2 ^ 53, otherwise round to nearest even at the granularity forced by the
53-bit significand. -/
def roundFloat64 (p : ℤ) : ℤ :=
  let a := p.natAbs
  if a ≤ 2 ^ 53 then p
  else
    let k := a.log2 + 1 - 53
    let q := rne a (2 ^ k)
    if p < 0 then -(q : ℤ) else (q : ℤ)

/-- One step of the pool_sync `fnv1aHash` loop, with exact JavaScript
semantics: `hash ^= charCode` is a 32-bit signed xor, and
`(hash * 16777619) >>> 0` is a binary64 multiplication (which can round,
the product exceeding 2 ^ 53) followed by ToUint32. -/
def fnv1aStep (h : ℕ) (c : ℕ) : ℕ :=
  let x := xor32 (Int.ofNat h) (Int.ofNat c)
  toUint32 (roundFloat64 (x * 16777619))

/-- pool_sync `fnv1aHash`, before the hex rendering: fold `fnv1aStep`
over the UTF-16 code units (all characters used are ASCII, so code units
coincide with code points) starting from 2166136261. -/
def fnv1aHash (s : String) : ℕ :=
  s.toList.foldl (fun h c => fnv1aStep h c.toNat) 2166136261

/-- JavaScript `Number.prototype.toString(16)` for a 32-bit natural:
lowercase hex digits, no leading zeros. -/
def natToHexStr (n : ℕ) : String :=
  String.mk (Nat.toDigits 16 n)

/-- Lexicographic order on character lists by code unit, as JavaScript
compares strings. -/
def charListLt : List Char → List Char → Bool
  | [], [] => false
  | [], _ :: _ => true
  | _ :: _, [] => false
  | a :: as, b :: bs =>
    if a.toNat < b.toNat then true
    else if b.toNat < a.toNat then false
    else charListLt as bs

/-- The default JavaScript `Array.prototype.sort` comparator on numbers
compares their decimal string forms; this is the resulting order. -/
def jsStrLe (a b : ℤ) : Bool :=
  !(charListLt (toString b).toList (toString a).toList)

/-- Insertion into a list sorted by `jsStrLe`. -/
def insertJsSorted (x : ℤ) : List ℤ → List ℤ
  | [] => [x]
  | y :: ys => if jsStrLe x y then x :: y :: ys else y :: insertJsSorted x ys

/-- The `[...xs].sort()` of `hashGameState`: default JavaScript sort,
which orders numbers by their string representations. -/
def jsSortInts (l : List ℤ) : List ℤ :=
  l.foldr insertJsSorted []

/-- Per-ball fragment of the canonical hash string:
number, colon, then the three quantized position coordinates. -/
def ballHashPart (b : Ball) : String :=
  toString b.number ++ ":" ++ numToString (quantize b.position.x) ++ "," ++
    numToString (quantize b.position.y) ++ "," ++ numToString (quantize b.position.z)

/-- pool_sync `hashGameState`: canonical string from the per-ball
quantized positions in snapshot order, the sorted pocketed lists and the
eight flag, then the 32-bit FNV-1a hash rendered in hex. -/
def hashGameState (s : GameStateSnapshot) : String :=
  let parts := s.balls.map ballHashPart
  let parts := parts ++ ["s:" ++ String.intercalate "," ((jsSortInts s.pocketed.solids).map toString)]
  let parts := parts ++ ["t:" ++ String.intercalate "," ((jsSortInts s.pocketed.stripes).map toString)]
  let parts := parts ++ ["e:" ++ (if s.pocketed.eight then "true" else "false")]
  natToHexStr (fnv1aHash (String.intercalate "|" parts))

/-- The host-provided operations used by the simulator: Rapier world
construction and stepping over an abstract internal state `σ`, impulse
application on a rigid body, and host math functions.  Two peers running
the identical engine build share one such record. -/
structure PhysEngine (σ : Type) where
  initWorld : ℚ → ℚ → σ
  setTimestep : σ → ℚ → σ
  worldStep : σ → List Ball → σ × List Ball
  applyImpulse : Ball → Vec3 → Ball
  applyTorqueImpulse : Ball → Vec3 → Ball
  cos : ℚ → ℚ
  sin : ℚ → ℚ
  sqrtQ : ℚ → ℚ

/-- Mutable state of the `simulateShot` stepping loop. -/
structure LoopState (σ : Type) where
  world : σ
  balls : List Ball
  pocketed : Pocketed
  pocketedThisShot : PocketedThisShot
  events : List PocketedEvent
  steps : ℕ

/-- One iteration of the `simulateShot` while-loop body: `world.step()`,
pocket checks, rolling friction, and the step counter increment. -/
def simBody {σ : Type} (E : PhysEngine σ) (canvasW canvasH : ℚ)
    (pockets : List Pocket) (s : LoopState σ) : LoopState σ :=
  let wb := E.worldStep s.world s.balls
  let cp := checkPockets canvasW canvasH pockets wb.2 s.pocketed s.pocketedThisShot
  let balls2 := applyRollingFriction E.sqrtQ cp.balls FIXED_DT
  ⟨wb.1, balls2, cp.pocketed, cp.pocketedThisShot, s.events ++ cp.events, s.steps + 1⟩

/-- The `simulateShot` while-loop: run the body while `steps` stays below
the safety bound, exiting early once `steps > 10` and all balls read as
stopped.  `fuel` is the number of loop iterations still allowed, so the
loop is entered with `fuel = MAX_SIM_STEPS` and `steps = 0`. -/
def simLoop {σ : Type} (E : PhysEngine σ) (canvasW canvasH : ℚ)
    (pockets : List Pocket) : ℕ → LoopState σ → LoopState σ
  | 0, st => st
  | fuel + 1, st =>
    let st1 := simBody E canvasW canvasH pockets st
    if 10 < st1.steps ∧ allBallsStopped st1.balls = true then st1
    else simLoop E canvasW canvasH pockets fuel st1

/-- Apply `f` to the first ball of type cue, as the source mutates the
body found by `balls.find(b => b.type === ...)`. -/
def applyToFirstCue (f : Ball → Ball) : List Ball → List Ball
  | [] => []
  | b :: rest => if b.type == "cue" then f b :: rest else b :: applyToFirstCue f rest

/-- pool_sync `SimulationResult`. -/
structure SimulationResult where
  finalSnapshot : GameStateSnapshot
  hash : String
  pocketedEvents : List PocketedEvent
  pocketedThisShot : PocketedThisShot
  stepsRun : ℕ
deriving DecidableEq

/-- pool_sync `simulateShot`: set the fixed timestep, apply the shot
impulse and torque impulse to the cue ball, run the stepping loop, then
serialize and hash the final state.  The missing-cue-ball throw is
modelled by `none`. -/
def simulateShot {σ : Type} (E : PhysEngine σ) (world : σ) (balls : List Ball)
    (pockets : List Pocket) (pocketed : Pocketed) (input : ShotInput)
    (canvasWidth canvasHeight : ℚ) : Option SimulationResult :=
  let world1 := E.setTimestep world FIXED_DT
  match balls.find? (fun b => b.type == "cue") with
  | none => none
  | some _ =>
    let impulseStrength := input.power * 8
    let impulseX := E.cos input.angle * impulseStrength
    let impulseZ := E.sin input.angle * impulseStrength
    let balls1 := applyToFirstCue
      (fun cb => E.applyTorqueImpulse (E.applyImpulse cb ⟨impulseX, 0, impulseZ⟩)
        ⟨-impulseZ * input.spinFactor, 0, impulseX * input.spinFactor⟩) balls
    let st := simLoop E canvasWidth canvasHeight pockets MAX_SIM_STEPS
      ⟨world1, balls1, pocketed, ⟨[], [], false⟩, [], 0⟩
    let finalSnapshot : GameStateSnapshot :=
      ⟨serializeBalls st.balls, ⟨st.pocketed.solids, st.pocketed.stripes, st.pocketed.eight⟩⟩
    some ⟨finalSnapshot, hashGameState finalSnapshot, st.events, st.pocketedThisShot, st.steps⟩

/-- Step count of a simulation outcome (0 for the missing-cue throw). -/
def stepsRunOf (r : Option SimulationResult) : ℕ :=
  ((r.map (·.stepsRun)).getD 0 : ℕ)

/-- Hash of a simulation outcome. -/
def hashOf (r : Option SimulationResult) : Option String :=
  r.map (·.hash)

/-- Final snapshot of a simulation outcome. -/
def snapshotOf (r : Option SimulationResult) : Option GameStateSnapshot :=
  r.map (·.finalSnapshot)

/-- Empty running pocketed state, as built by `createFreshWorld` and the
engine constructor. -/
def emptyPocketed : Pocketed := ⟨[], [], false⟩

/-! Message handler outcomes (pool_sync `OnlinePeer` and the monolithic
`PoolGameEngine` network handlers). -/

/-- Result of feeding one raw inbound payload to a message handler:
delivered to the game logic, silently dropped, or an exception escaping
the handler. -/
inductive HandlerOutcome (α : Type) where
  | handled (msg : α)
  | dropped
  | thrown (err : String)
deriving DecidableEq

/-- The `OnlinePeer` data-channel handler: `JSON.parse` inside
try/catch, returning on failure, then `events.onData(msg)`.
`jsonParse` abstracts the host JSON parser. -/
def onlinePeerDataHandler {α : Type} (jsonParse : String → Option α)
    (raw : String) : HandlerOutcome α :=
  match jsonParse raw with
  | none => HandlerOutcome.dropped
  | some m => HandlerOutcome.handled m

/-- The `OnlinePeer` signaling-socket handler: `JSON.parse` inside
try/catch, returning on failure, then the message dispatch. -/
def onlinePeerSignalingHandler {α : Type} (jsonParse : String → Option α)
    (raw : String) : HandlerOutcome α :=
  match jsonParse raw with
  | none => HandlerOutcome.dropped
  | some m => HandlerOutcome.handled m

/-- The monolithic `PoolGameEngine` peer data handler: bare
`JSON.parse(data.toString())` with no guard, so an unparseable payload
raises and the exception escapes the handler. -/
def engineDataHandler {α : Type} (jsonParse : String → Option α)
    (raw : String) : HandlerOutcome α :=
  match jsonParse raw with
  | none => HandlerOutcome.thrown "SyntaxError"
  | some m => HandlerOutcome.handled m

/-- The monolithic `PoolGameEngine` signaling-socket handler: bare
`JSON.parse(event.data)` with no guard. -/
def engineSignalingHandler {α : Type} (jsonParse : String → Option α)
    (raw : String) : HandlerOutcome α :=
  match jsonParse raw with
  | none => HandlerOutcome.thrown "SyntaxError"
  | some m => HandlerOutcome.handled m

/-! Concrete instances used to evaluate the definitions on explicit
inputs. -/

/-- A trivial engine instance over a unit world state. -/
def Etriv : PhysEngine Unit where
  initWorld := fun _ _ => ()
  setTimestep := fun s _ => s
  worldStep := fun s bs => (s, bs)
  applyImpulse := fun b _ => b
  applyTorqueImpulse := fun b _ => b
  cos := fun q => q
  sin := fun q => q
  sqrtQ := fun q => q

/-- A ball sitting still at a pocket-free spot of a 1200 x 700 table. -/
def ctrBall : Ball :=
  ⟨0, "cue", ⟨120, physRadius, 70⟩, ⟨1, 0, 0⟩, ⟨0, 0, 0⟩, ⟨1, 0, 0, 0⟩⟩

/-- An engine whose step counter lives in `σ = ℕ` and whose dynamics set
the ball planar velocity to 1 on every step except step 11, where it is
set to 0: the settle readings are negative for steps 1 to 10 and positive
at step 11. -/
def Ectr : PhysEngine ℕ where
  initWorld := fun _ _ => 0
  setTimestep := fun s _ => s
  worldStep := fun n bs =>
    (n + 1, bs.map fun b => { b with linvel := ⟨if n + 1 = 11 then 0 else 1, 0, 0⟩ })
  applyImpulse := fun b _ => b
  applyTorqueImpulse := fun b _ => b
  cos := fun q => q
  sin := fun q => q
  sqrtQ := fun q => q

/-- Initial loop state for the `Ectr` run. -/
def ctrState : LoopState ℕ :=
  ⟨0, [ctrBall], ⟨[], [], false⟩, ⟨[], [], false⟩, [], 0⟩

/-- A resting cue ball used to evaluate the shooting predicates. -/
def stillBall : Ball :=
  ⟨0, "cue", ⟨60, physRadius, 70⟩, ⟨0, 0, 0⟩, ⟨0, 0, 0⟩, ⟨1, 0, 0, 0⟩⟩

/-- Snapshot with a single resting cue ball. -/
def c4snapA : GameStateSnapshot :=
  ⟨[⟨0, "cue", ⟨60, 2.4, 70⟩, ⟨0, 0, 0⟩, ⟨0, 0, 0⟩, ⟨1, 0, 0, 0⟩⟩], ⟨[], [], false⟩⟩

/-- The same snapshot with different linear velocity, angular velocity
and orientation on the ball. -/
def c4snapB : GameStateSnapshot :=
  ⟨[⟨0, "cue", ⟨60, 2.4, 70⟩, ⟨1, 2, 3⟩, ⟨4, 5, 6⟩, ⟨0, 1, 0, 0⟩⟩], ⟨[], [], false⟩⟩

/-- Assigned types: player 1 solids, player 2 stripes. -/
def c3types : PlayerTypes := ⟨some "solid", some "stripe"⟩

/-- A cue ball sitting in the top-left pocket of a 1200 x 700 table. -/
def c8cue : Ball := ⟨0, "cue", ⟨8, physRadius, 8⟩, ⟨0, 0, 0⟩, ⟨0, 0, 0⟩, ⟨1, 0, 0, 0⟩⟩

/-- Solid 2 sitting in the top-right pocket. -/
def c8solid : Ball := ⟨2, "solid", ⟨232, physRadius, 8⟩, ⟨0, 0, 0⟩, ⟨0, 0, 0⟩, ⟨1, 0, 0, 0⟩⟩

/-- Stripe 9 outside the left table bound. -/
def c8stripe : Ball := ⟨9, "stripe", ⟨2, physRadius, 70⟩, ⟨0, 0, 0⟩, ⟨0, 0, 0⟩, ⟨1, 0, 0, 0⟩⟩

/-- The eight ball sitting in the bottom-left pocket. -/
def c8eight : Ball := ⟨8, "eight", ⟨8, physRadius, 132⟩, ⟨0, 0, 0⟩, ⟨0, 0, 0⟩, ⟨1, 0, 0, 0⟩⟩

/-- Four balls exercising every `checkPockets` outcome on a 1200 x 700
table. -/
def c8balls : List Ball := [c8cue, c8solid, c8stripe, c8eight]

/-- Count of cue balls in a list. -/
def countCue (balls : List Ball) : ℕ :=
  balls.countP fun b => b.type == "cue"

/-! Theorems. -/

/-- C5: for every input to `evaluateTurnSwitch` in which
`pocketedThisShot.cueBall` is true (a scratch), the turn always switches:
the current player flips between 1 and 2, `isMyTurn` is negated exactly
in online mode, and `playerTypes` are left unchanged, regardless of any
other pocketing this shot. -/
theorem c5_scratch_always_switches (currentPlayer : ℤ) (mode : String)
    (isMyTurn : Bool) (playerTypes : PlayerTypes) (pts : PocketedThisShot)
    (h : pts.cueBall = true) :
    (evaluateTurnSwitch currentPlayer mode isMyTurn playerTypes pts).playerTypes = playerTypes ∧
    (evaluateTurnSwitch currentPlayer mode isMyTurn playerTypes pts).currentPlayer =
      (if currentPlayer = 1 then 2 else 1) ∧
    (evaluateTurnSwitch currentPlayer mode isMyTurn playerTypes pts).isMyTurn =
      (if mode == "online" then !isMyTurn else isMyTurn) := by
  simp [evaluateTurnSwitch, switchTurn, h]

/-- Witness for C5: a scratch while also pocketing an own solid, player 1
online; the turn goes to player 2 and the types are untouched. -/
theorem c5_scratch_always_switches_witness :
    (evaluateTurnSwitch 1 "online" true c3types ⟨[3], [], true⟩).playerTypes = c3types ∧
    (evaluateTurnSwitch 1 "online" true c3types ⟨[3], [], true⟩).currentPlayer =
      (if (1 : ℤ) = 1 then 2 else 1) ∧
    (evaluateTurnSwitch 1 "online" true c3types ⟨[3], [], true⟩).isMyTurn =
      (if "online" == "online" then !true else true) :=
  c5_scratch_always_switches 1 "online" true c3types ⟨[3], [], true⟩ rfl

/-- C6: with no scratch and the shooter type still unassigned,
`evaluateTurnSwitch` assigns solid to the shooter and stripe to the
opponent when at least one solid was pocketed, keeping the turn;
symmetrically for stripes when no solid was pocketed; and switches the
turn leaving the types unchanged when nothing was pocketed. -/
theorem c6_type_assignment (currentPlayer : ℤ) (mode : String) (isMyTurn : Bool)
    (playerTypes : PlayerTypes) (pts : PocketedThisShot)
    (hscr : pts.cueBall = false)
    (hnone : (if currentPlayer = 1 then playerTypes.player1 else playerTypes.player2) = none) :
    (0 < pts.solids.length →
      evaluateTurnSwitch currentPlayer mode isMyTurn playerTypes pts =
        ⟨if currentPlayer = 1 then ⟨some "solid", some "stripe"⟩ else ⟨some "stripe", some "solid"⟩,
          currentPlayer, isMyTurn⟩) ∧
    (pts.solids = [] → 0 < pts.stripes.length →
      evaluateTurnSwitch currentPlayer mode isMyTurn playerTypes pts =
        ⟨if currentPlayer = 1 then ⟨some "stripe", some "solid"⟩ else ⟨some "solid", some "stripe"⟩,
          currentPlayer, isMyTurn⟩) ∧
    (pts.solids = [] → pts.stripes = [] →
      evaluateTurnSwitch currentPlayer mode isMyTurn playerTypes pts =
        ⟨playerTypes, if currentPlayer = 1 then 2 else 1,
          if mode == "online" then !isMyTurn else isMyTurn⟩) := by
  refine ⟨fun hs => ?_, fun hs hst => ?_, fun hs hst => ?_⟩
  · simp [evaluateTurnSwitch, switchTurn, hscr, hnone, hs]
  · simp [evaluateTurnSwitch, switchTurn, hscr, hnone, hs, hst]
  · simp [evaluateTurnSwitch, switchTurn, hscr, hnone, hs, hst]

/-- Witness for C6: player 1 pockets solid 2 on an open table and keeps
the turn with solids assigned. -/
theorem c6_type_assignment_witness :
    evaluateTurnSwitch 1 "online" true ⟨none, none⟩ ⟨[2], [], false⟩ =
      ⟨if (1 : ℤ) = 1 then ⟨some "solid", some "stripe"⟩ else ⟨some "stripe", some "solid"⟩,
        1, true⟩ :=
  (c6_type_assignment 1 "online" true ⟨none, none⟩ ⟨[2], [], false⟩ rfl rfl).1
    (by decide)

/-- C3: evaluation of the claimed game-over rule against the code path.
Failing input: player 1 (assigned solids, with only solids 1, 2, 3
pocketed) shoots and pockets only the eight-ball, no scratch.  The first
conjunct shows the game-over rule itself, fed the true shooter as the
spec and the unit tests do, awards the win to the opponent (player 2).
The remaining conjuncts evaluate `onShotSettledOutcome`, the sequencing
of the settled-shot handler in the engine: `evaluateTurnSwitch` runs
first and switches the turn to player 2, so `evaluateGameOver` sees
`currentPlayer = 2` and awards the win to player 1 — the shooter who
pocketed the eight-ball early — contradicting the claim that the
opponent of the shooter wins. -/
theorem c3_game_over_divergence :
    evaluateGameOver 1 c3types ⟨[1, 2, 3], [], true⟩ =
      some ⟨2, "Pocketed 8-ball early"⟩ ∧
    (onShotSettledOutcome "local" 1 true c3types ⟨[], [], false⟩
      ⟨[1, 2, 3], [], true⟩).1.currentPlayer = 2 ∧
    (onShotSettledOutcome "local" 1 true c3types ⟨[], [], false⟩
      ⟨[1, 2, 3], [], true⟩).2 =
      some ⟨1, "Pocketed 8-ball early"⟩ := by
  refine ⟨?_, ?_, ?_⟩ <;> rfl

/-- C9: on an unparseable payload, the `OnlinePeer` data-channel and
signaling handlers drop the message without throwing, but the monolithic
`PoolGameEngine` data and signaling handlers let the `JSON.parse`
exception escape, contradicting the claim that no handler can crash the
session. -/
theorem c9_malformed_message (α : Type) (jsonParse : String → Option α)
    (raw : String) (h : jsonParse raw = none) :
    onlinePeerDataHandler jsonParse raw = HandlerOutcome.dropped ∧
    onlinePeerSignalingHandler jsonParse raw = HandlerOutcome.dropped ∧
    engineDataHandler jsonParse raw = HandlerOutcome.thrown "SyntaxError" ∧
    engineSignalingHandler jsonParse raw = HandlerOutcome.thrown "SyntaxError" := by
  simp [onlinePeerDataHandler, onlinePeerSignalingHandler, engineDataHandler,
    engineSignalingHandler, h]

/-- Witness for C9: a concrete parser outcome on a concrete raw string. -/
theorem c9_malformed_message_witness :
    onlinePeerDataHandler (fun _ => (none : Option Unit)) "oops" = HandlerOutcome.dropped ∧
    onlinePeerSignalingHandler (fun _ => (none : Option Unit)) "oops" = HandlerOutcome.dropped ∧
    engineDataHandler (fun _ => (none : Option Unit)) "oops" = HandlerOutcome.thrown "SyntaxError" ∧
    engineSignalingHandler (fun _ => (none : Option Unit)) "oops" =
      HandlerOutcome.thrown "SyntaxError" :=
  c9_malformed_message Unit (fun _ => none) "oops" rfl

/-- C10: whenever `canShoot` returns true, `allBallsStopped` returns true
on the same balls: the `canShoot` linear test includes the y component
with the same 0.05 threshold, so it is at least as strict as the planar
settle predicate, and the angular tests coincide. -/
theorem c10_canShoot_implies_stopped (mode : String) (isMyTurn : Bool)
    (balls : List Ball) (h : canShoot mode isMyTurn balls = true) :
    allBallsStopped balls = true := by
  rw [canShoot] at h
  split at h
  · exact absurd h (by simp)
  · unfold allBallsStopped
    rw [List.all_eq_true] at h ⊢
    intro b hb
    have hb' := h b hb
    simp only [Bool.and_eq_true, decide_eq_true_eq] at hb' ⊢
    refine ⟨?_, hb'.2⟩
    have hy : 0 ≤ b.linvel.y * b.linvel.y := mul_self_nonneg _
    have := hb'.1
    linarith

/-- Witness for C10: a single resting cue ball in local mode may be shot,
and the settle predicate agrees it is stopped. -/
theorem c10_canShoot_implies_stopped_witness :
    allBallsStopped [stillBall] = true :=
  c10_canShoot_implies_stopped "local" true [stillBall]
    (by with_unfolding_all decide)

/-- The loop body increments the step counter by exactly one. -/
theorem simBody_steps {σ : Type} (E : PhysEngine σ) (cw ch : ℚ)
    (pockets : List Pocket) (s : LoopState σ) :
    (simBody E cw ch pockets s).steps = s.steps + 1 := rfl

/-- The stepping loop runs at most `fuel` iterations. -/
theorem simLoop_steps_le {σ : Type} (E : PhysEngine σ) (cw ch : ℚ)
    (pockets : List Pocket) :
    ∀ (fuel : ℕ) (st : LoopState σ),
      (simLoop E cw ch pockets fuel st).steps ≤ st.steps + fuel := by
  intro fuel
  induction fuel with
  | zero => intro st; simp [simLoop]
  | succ n ih =>
    intro st
    rw [simLoop]
    split
    · rw [simBody_steps]; omega
    · have h := ih (simBody E cw ch pockets st)
      rw [simBody_steps] at h
      omega

/-- C2: for every engine, initial world state and shot input,
`simulateShot` terminates with `stepsRun` at most `MAX_SIM_STEPS`, and
`MAX_SIM_STEPS = 120 * 30 = 3600`; reaching the cap simply exits the
loop, so the result is produced as for a settled shot. -/
theorem c2_step_bound {σ : Type} (E : PhysEngine σ) (world : σ)
    (balls : List Ball) (pockets : List Pocket) (pocketed : Pocketed)
    (input : ShotInput) (cw ch : ℚ) :
    stepsRunOf (simulateShot E world balls pockets pocketed input cw ch) ≤ MAX_SIM_STEPS ∧
    MAX_SIM_STEPS = 3600 := by
  refine ⟨?_, rfl⟩
  rw [simulateShot]
  cases h : balls.find? (fun b => b.type == "cue") with
  | none => simp [stepsRunOf]
  | some b =>
    simp only [stepsRunOf, Option.map_some, Option.getD_some]
    have hle := simLoop_steps_le E cw ch pockets MAX_SIM_STEPS
      ⟨E.setTimestep world FIXED_DT,
        applyToFirstCue (fun cb => E.applyTorqueImpulse
          (E.applyImpulse cb ⟨E.cos input.angle * (input.power * 8), 0,
            E.sin input.angle * (input.power * 8)⟩)
          ⟨-(E.sin input.angle * (input.power * 8)) * input.spinFactor, 0,
            E.cos input.angle * (input.power * 8) * input.spinFactor⟩) balls,
        pocketed, ⟨[], [], false⟩, [], 0⟩
    simpa using hle

/-- C1: two independently constructed runs — world, table and rack built
from the same canvas dimensions, stepped by the same engine on the same
`ShotInput` — agree on the step count, the snapshot hash, and the final
snapshot itself.  In this pure embedding the simulation is a function of
the engine record, the constructed initial state and the input alone, so
agreement of the inputs forces agreement of the outcomes; there is no
hidden source of divergence. -/
theorem c1_determinism {σ : Type} (E : PhysEngine σ) (cw1 ch1 cw2 ch2 : ℚ)
    (input : ShotInput) (hw : cw1 = cw2) (hh : ch1 = ch2) :
    stepsRunOf (simulateShot E (E.initWorld cw1 ch1) (setupBalls ch1)
        (setupTablePockets cw1 ch1) emptyPocketed input cw1 ch1) =
      stepsRunOf (simulateShot E (E.initWorld cw2 ch2) (setupBalls ch2)
        (setupTablePockets cw2 ch2) emptyPocketed input cw2 ch2) ∧
    hashOf (simulateShot E (E.initWorld cw1 ch1) (setupBalls ch1)
        (setupTablePockets cw1 ch1) emptyPocketed input cw1 ch1) =
      hashOf (simulateShot E (E.initWorld cw2 ch2) (setupBalls ch2)
        (setupTablePockets cw2 ch2) emptyPocketed input cw2 ch2) ∧
    snapshotOf (simulateShot E (E.initWorld cw1 ch1) (setupBalls ch1)
        (setupTablePockets cw1 ch1) emptyPocketed input cw1 ch1) =
      snapshotOf (simulateShot E (E.initWorld cw2 ch2) (setupBalls ch2)
        (setupTablePockets cw2 ch2) emptyPocketed input cw2 ch2) := by
  subst hw
  subst hh
  exact ⟨rfl, rfl, rfl⟩

/-- Witness for C1: the break shot of the test suite on the 1200 x 700
canvas, with a concrete engine instance. -/
theorem c1_determinism_witness :
    stepsRunOf (simulateShot Etriv (Etriv.initWorld 1200 700) (setupBalls 700)
        (setupTablePockets 1200 700) emptyPocketed ⟨0.1, 3, 0.3⟩ 1200 700) =
      stepsRunOf (simulateShot Etriv (Etriv.initWorld 1200 700) (setupBalls 700)
        (setupTablePockets 1200 700) emptyPocketed ⟨0.1, 3, 0.3⟩ 1200 700) ∧
    hashOf (simulateShot Etriv (Etriv.initWorld 1200 700) (setupBalls 700)
        (setupTablePockets 1200 700) emptyPocketed ⟨0.1, 3, 0.3⟩ 1200 700) =
      hashOf (simulateShot Etriv (Etriv.initWorld 1200 700) (setupBalls 700)
        (setupTablePockets 1200 700) emptyPocketed ⟨0.1, 3, 0.3⟩ 1200 700) ∧
    snapshotOf (simulateShot Etriv (Etriv.initWorld 1200 700) (setupBalls 700)
        (setupTablePockets 1200 700) emptyPocketed ⟨0.1, 3, 0.3⟩ 1200 700) =
      snapshotOf (simulateShot Etriv (Etriv.initWorld 1200 700) (setupBalls 700)
        (setupTablePockets 1200 700) emptyPocketed ⟨0.1, 3, 0.3⟩ 1200 700) :=
  c1_determinism Etriv 1200 700 1200 700 ⟨0.1, 3, 0.3⟩ rfl rfl

/-- The stepping loop result is an iterate of the loop body, and an early
exit can only happen on a positive settle reading past step 10. -/
theorem simLoop_iter {σ : Type} (E : PhysEngine σ) (cw ch : ℚ)
    (pockets : List Pocket) :
    ∀ (fuel : ℕ) (st : LoopState σ),
      ∃ k, k ≤ fuel ∧
        simLoop E cw ch pockets fuel st = (simBody E cw ch pockets)^[k] st ∧
        (simLoop E cw ch pockets fuel st).steps = st.steps + k ∧
        (k < fuel → 10 < (simLoop E cw ch pockets fuel st).steps ∧
          allBallsStopped (simLoop E cw ch pockets fuel st).balls = true) := by
  intro fuel
  induction fuel with
  | zero =>
    intro st
    exact ⟨0, le_refl 0, by simp [simLoop], by simp [simLoop], by omega⟩
  | succ n ih =>
    intro st
    rw [simLoop]
    split
    · rename_i hc
      refine ⟨1, by omega, ?_, ?_, fun _ => hc⟩
      · rw [Function.iterate_one]
      · rw [simBody_steps]
    · obtain ⟨k, hk, hiter, hsteps, hbrk⟩ := ih (simBody E cw ch pockets st)
      refine ⟨k + 1, by omega, ?_, ?_, fun hlt => hbrk (by omega)⟩
      · rw [Function.iterate_succ_apply]
        exact hiter
      · rw [hsteps, simBody_steps]
        omega

/-- C7 (amended): when the stepping loop of `simulateShot` ends before
the hard step bound, it does so at the first settle check that both
happened after step 10 and read all balls as stopped; a single positive
reading suffices — the first 10 steps are merely exempt from the check,
and no consecutive confirmation is required. -/
theorem c7_settle_characterization {σ : Type} (E : PhysEngine σ) (cw ch : ℚ)
    (pockets : List Pocket) (st0 : LoopState σ) (h0 : st0.steps = 0)
    (hlt : (simLoop E cw ch pockets MAX_SIM_STEPS st0).steps < MAX_SIM_STEPS) :
    10 < (simLoop E cw ch pockets MAX_SIM_STEPS st0).steps ∧
    simLoop E cw ch pockets MAX_SIM_STEPS st0 =
      (simBody E cw ch pockets)^[(simLoop E cw ch pockets MAX_SIM_STEPS st0).steps] st0 ∧
    allBallsStopped
      ((simBody E cw ch pockets)^[(simLoop E cw ch pockets MAX_SIM_STEPS st0).steps] st0).balls =
      true := by
  obtain ⟨k, hk, hiter, hsteps, hbrk⟩ := simLoop_iter E cw ch pockets MAX_SIM_STEPS st0
  have hks : (simLoop E cw ch pockets MAX_SIM_STEPS st0).steps = k := by
    rw [hsteps, h0]; omega
  have hklt : k < MAX_SIM_STEPS := by omega
  obtain ⟨hgt, hstop⟩ := hbrk hklt
  refine ⟨hgt, ?_, ?_⟩
  · rw [hks]; exact hiter
  · rw [hks, ← hiter]; exact hstop

/-- C7 counterexample: a concrete run in which the loop ends at step 11,
far below the hard bound, although the settle check at step 10 was
negative — the very first positive reading (a transient one produced by
the `Ectr` dynamics, whose step 12 would move the ball again) ends the
shot by itself.  This falsifies the claim that the loop ends only after
the stop thresholds hold for a minimum number of consecutive per-step
checks: there is no two-consecutive-readings requirement. -/
theorem c7_single_reading_counterexample :
    (simLoop Ectr 1200 700 [] MAX_SIM_STEPS ctrState).steps = 11 ∧
    11 < MAX_SIM_STEPS ∧
    allBallsStopped ((simBody Ectr 1200 700 [])^[10] ctrState).balls = false ∧
    allBallsStopped ((simBody Ectr 1200 700 [])^[11] ctrState).balls = true := by
  refine ⟨?_, by decide, ?_, ?_⟩ <;> with_unfolding_all decide

/-- Witness for C7: the amended characterization applied to the concrete
`Ectr` run that stops at step 11. -/
theorem c7_settle_characterization_witness :
    10 < (simLoop Ectr 1200 700 [] MAX_SIM_STEPS ctrState).steps ∧
    simLoop Ectr 1200 700 [] MAX_SIM_STEPS ctrState =
      (simBody Ectr 1200 700 [])^[(simLoop Ectr 1200 700 [] MAX_SIM_STEPS ctrState).steps]
        ctrState ∧
    allBallsStopped
      ((simBody Ectr 1200 700 [])^[(simLoop Ectr 1200 700 [] MAX_SIM_STEPS ctrState).steps]
        ctrState).balls = true :=
  c7_settle_characterization Ectr 1200 700 [] ctrState rfl
    (by with_unfolding_all decide)

/-- C4 counterexample: two snapshots over the same ball number and
position but with different linear velocity, angular velocity and
orientation receive the same hash — `hashGameState` feeds only the
quantized positions (plus pocketed lists and eight flag) to FNV-1a, not
the other per-ball fields captured by serialization as the claim
states. -/
theorem c4_velocity_not_hashed :
    hashGameState c4snapA = hashGameState c4snapB ∧
    c4snapA.balls.map (·.linvel) ≠ c4snapB.balls.map (·.linvel) ∧
    c4snapA.balls.map (·.angvel) ≠ c4snapB.balls.map (·.angvel) ∧
    c4snapA.balls.map (·.rotation) ≠ c4snapB.balls.map (·.rotation) := by
  refine ⟨by with_unfolding_all rfl, ?_, ?_, ?_⟩ <;> decide

/-- C4 (amended): `hashGameState` rounds each position coordinate to 6
decimals, concatenates per-ball number-and-position fragments in the
snapshot ball order together with the sorted pocketed-solids list, the
sorted pocketed-stripes list and the eight flag, and returns the 32-bit
FNV-1a hash of the canonical string; consequently the hash depends only
on the ball numbers, ball positions and pocketed state — linear
velocity, angular velocity and orientation are not hashed. -/
theorem c4_hash_positions_only (s1 s2 : GameStateSnapshot)
    (hb : s1.balls.map (fun b => (b.number, b.position)) =
      s2.balls.map (fun b => (b.number, b.position)))
    (hp : s1.pocketed = s2.pocketed) :
    hashGameState s1 = hashGameState s2 := by
  have h1 : s1.balls.map ballHashPart =
      (s1.balls.map (fun b => (b.number, b.position))).map
        (fun p => toString p.1 ++ ":" ++ numToString (quantize p.2.x) ++ "," ++
          numToString (quantize p.2.y) ++ "," ++ numToString (quantize p.2.z)) := by
    rw [List.map_map]
    simp [ballHashPart, Function.comp]
  have h2 : s2.balls.map ballHashPart =
      (s2.balls.map (fun b => (b.number, b.position))).map
        (fun p => toString p.1 ++ ":" ++ numToString (quantize p.2.x) ++ "," ++
          numToString (quantize p.2.y) ++ "," ++ numToString (quantize p.2.z)) := by
    rw [List.map_map]
    simp [ballHashPart, Function.comp]
  have hmap : s1.balls.map ballHashPart = s2.balls.map ballHashPart := by
    rw [h1, h2, hb]
  unfold hashGameState
  rw [hmap, hp]

/-- Witness for C4: the two concrete snapshots share numbers, positions
and pocketed state, so the amended theorem applies and their hashes
agree. -/
theorem c4_hash_positions_only_witness :
    hashGameState c4snapA = hashGameState c4snapB :=
  c4_hash_positions_only c4snapA c4snapB rfl rfl

/-- Case analysis of one `checkPockets` loop iteration: a ball that fails
the pocket test is kept with all state unchanged; a pocketed cue ball is
replaced by `newCueBall` and flags the scratch; a pocketed eight ball is
removed and sets the eight flag; a pocketed solid or stripe is removed
and its number appended to both the running state and the tally. -/
theorem processPocketedBall_cases (w h : ℚ) (pockets : List Pocket) (b : Ball)
    (acc : CheckPocketsOut) :
    (ballPocketTest w h pockets b = false ∧
      (processPocketedBall w h pockets b acc).balls = b :: acc.balls ∧
      (processPocketedBall w h pockets b acc).pocketed = acc.pocketed ∧
      (processPocketedBall w h pockets b acc).pocketedThisShot = acc.pocketedThisShot) ∨
    (ballPocketTest w h pockets b = true ∧ b.type = "cue" ∧
      (processPocketedBall w h pockets b acc).balls = newCueBall h :: acc.balls ∧
      (processPocketedBall w h pockets b acc).pocketed = acc.pocketed ∧
      (processPocketedBall w h pockets b acc).pocketedThisShot =
        { acc.pocketedThisShot with cueBall := true }) ∨
    (ballPocketTest w h pockets b = true ∧ b.type = "eight" ∧
      (processPocketedBall w h pockets b acc).balls = acc.balls ∧
      (processPocketedBall w h pockets b acc).pocketed = { acc.pocketed with eight := true } ∧
      (processPocketedBall w h pockets b acc).pocketedThisShot = acc.pocketedThisShot) ∨
    (ballPocketTest w h pockets b = true ∧ b.type = "solid" ∧
      (processPocketedBall w h pockets b acc).balls = acc.balls ∧
      (processPocketedBall w h pockets b acc).pocketed =
        { acc.pocketed with solids := acc.pocketed.solids ++ [b.number] } ∧
      (processPocketedBall w h pockets b acc).pocketedThisShot =
        { acc.pocketedThisShot with solids := acc.pocketedThisShot.solids ++ [b.number] }) ∨
    (ballPocketTest w h pockets b = true ∧
      ¬b.type = "cue" ∧ ¬b.type = "eight" ∧ ¬b.type = "solid" ∧
      (processPocketedBall w h pockets b acc).balls = acc.balls ∧
      (processPocketedBall w h pockets b acc).pocketed =
        { acc.pocketed with stripes := acc.pocketed.stripes ++ [b.number] } ∧
      (processPocketedBall w h pockets b acc).pocketedThisShot =
        { acc.pocketedThisShot with stripes := acc.pocketedThisShot.stripes ++ [b.number] }) := by
  by_cases ht : ballPocketTest w h pockets b = true
  · by_cases hcue : b.type = "cue"
    · refine Or.inr (Or.inl ⟨ht, hcue, ?_, ?_, ?_⟩) <;>
        simp [processPocketedBall, ht, hcue]
    · by_cases hei : b.type = "eight"
      · refine Or.inr (Or.inr (Or.inl ⟨ht, hei, ?_, ?_, ?_⟩)) <;>
          simp [processPocketedBall, ht, hcue, hei]
      · by_cases hso : b.type = "solid"
        · refine Or.inr (Or.inr (Or.inr (Or.inl ⟨ht, hso, ?_, ?_, ?_⟩))) <;>
            simp [processPocketedBall, ht, hcue, hei, hso]
        · refine Or.inr (Or.inr (Or.inr (Or.inr ⟨ht, hcue, hei, hso, ?_, ?_, ?_⟩))) <;>
            simp [processPocketedBall, ht, hcue, hei, hso]
  · have ht' : ballPocketTest w h pockets b = false := by simpa using ht
    refine Or.inl ⟨ht', ?_, ?_, ?_⟩ <;> simp [processPocketedBall, ht']

/-- `cpGo` on a cons is one loop iteration applied to the processed
tail. -/
theorem cpGo_cons (w h : ℚ) (pockets : List Pocket) (b : Ball) (rest : List Ball)
    (pk : Pocketed) (pts : PocketedThisShot) :
    cpGo w h pockets (b :: rest) pk pts =
      processPocketedBall w h pockets b (cpGo w h pockets rest pk pts) := rfl

/-- `checkPockets` preserves the number of cue balls among the active
balls: the cue is respawned in place, and only non-cue balls are
removed. -/
theorem cpGo_countCue (w h : ℚ) (pockets : List Pocket) :
    ∀ (balls : List Ball) (pk : Pocketed) (pts : PocketedThisShot),
      countCue (cpGo w h pockets balls pk pts).balls = countCue balls := by
  intro balls
  induction balls with
  | nil => intro pk pts; rfl
  | cons b rest ih =>
    intro pk pts
    have ihr := ih pk pts
    simp only [countCue] at ihr ⊢
    rw [cpGo_cons]
    rcases processPocketedBall_cases w h pockets b (cpGo w h pockets rest pk pts) with
      ⟨ht, hb, _, _⟩ | ⟨ht, hcue, hb, _, _⟩ | ⟨ht, hei, hb, _, _⟩ |
      ⟨ht, hso, hb, _, _⟩ | ⟨ht, hcue, hei, hso, hb, _, _⟩
    · rw [hb, List.countP_cons, List.countP_cons, ihr]
    · have h1 : ((newCueBall h).type == "cue") = true := rfl
      have h2 : (b.type == "cue") = true := by rw [hcue]; decide
      rw [hb, List.countP_cons, List.countP_cons, ihr, h1, h2]
    · have h2 : (b.type == "cue") = false := by rw [hei]; decide
      rw [hb, List.countP_cons, h2, ihr]
      simp
    · have h2 : (b.type == "cue") = false := by rw [hso]; decide
      rw [hb, List.countP_cons, h2, ihr]
      simp
    · have h2 : (b.type == "cue") = false := by
        simp [hcue]
      rw [hb, List.countP_cons, h2, ihr]
      simp

/-- The pocketed state and per-shot tally only ever grow across a
`checkPockets` call: the lists are extended on the right and the flags
are monotone. -/
theorem cpGo_extends (w h : ℚ) (pockets : List Pocket) :
    ∀ (balls : List Ball) (pk : Pocketed) (pts : PocketedThisShot),
      (∃ ds, (cpGo w h pockets balls pk pts).pocketed.solids = pk.solids ++ ds) ∧
      (∃ dt, (cpGo w h pockets balls pk pts).pocketed.stripes = pk.stripes ++ dt) ∧
      (pk.eight = true → (cpGo w h pockets balls pk pts).pocketed.eight = true) ∧
      (pts.cueBall = true → (cpGo w h pockets balls pk pts).pocketedThisShot.cueBall = true) ∧
      (∃ es, (cpGo w h pockets balls pk pts).pocketedThisShot.solids = pts.solids ++ es) ∧
      (∃ et, (cpGo w h pockets balls pk pts).pocketedThisShot.stripes = pts.stripes ++ et) := by
  intro balls
  induction balls with
  | nil =>
    intro pk pts
    exact ⟨⟨[], by simp [cpGo]⟩, ⟨[], by simp [cpGo]⟩, fun hh => hh, fun hh => hh,
      ⟨[], by simp [cpGo]⟩, ⟨[], by simp [cpGo]⟩⟩
  | cons b rest ih =>
    intro pk pts
    obtain ⟨⟨ds, hds⟩, ⟨dt, hdt⟩, hei8, hcb, ⟨es, hes⟩, ⟨et, het⟩⟩ := ih pk pts
    rw [cpGo_cons]
    rcases processPocketedBall_cases w h pockets b (cpGo w h pockets rest pk pts) with
      ⟨ht, _, hp, hq⟩ | ⟨ht, hcue, _, hp, hq⟩ | ⟨ht, hei, _, hp, hq⟩ |
      ⟨ht, hso, _, hp, hq⟩ | ⟨ht, hcue, hei, hso, _, hp, hq⟩
    · rw [hp, hq]
      exact ⟨⟨ds, hds⟩, ⟨dt, hdt⟩, hei8, hcb, ⟨es, hes⟩, ⟨et, het⟩⟩
    · rw [hp, hq]
      exact ⟨⟨ds, hds⟩, ⟨dt, hdt⟩, hei8, fun _ => rfl, ⟨es, hes⟩, ⟨et, het⟩⟩
    · rw [hp, hq]
      exact ⟨⟨ds, hds⟩, ⟨dt, hdt⟩, fun _ => rfl, hcb, ⟨es, hes⟩, ⟨et, het⟩⟩
    · rw [hp, hq]
      refine ⟨⟨ds ++ [b.number], ?_⟩, ⟨dt, hdt⟩, hei8, hcb, ⟨es ++ [b.number], ?_⟩, ⟨et, het⟩⟩
      · simp [hds]
      · simp [hes]
    · rw [hp, hq]
      refine ⟨⟨ds, hds⟩, ⟨dt ++ [b.number], ?_⟩, hei8, hcb, ⟨es, hes⟩, ⟨et ++ [b.number], ?_⟩⟩
      · simp [hdt]
      · simp [het]

/-- Shape of the active set after `checkPockets`: every remaining ball is
either a respawned cue ball or an input ball that failed the pocket
test. -/
theorem cpGo_mem_shape (w h : ℚ) (pockets : List Pocket) :
    ∀ (balls : List Ball) (pk : Pocketed) (pts : PocketedThisShot) (x : Ball),
      x ∈ (cpGo w h pockets balls pk pts).balls →
      x = newCueBall h ∨ (x ∈ balls ∧ ballPocketTest w h pockets x = false) := by
  intro balls
  induction balls with
  | nil =>
    intro pk pts x hx
    simp [cpGo] at hx
  | cons b rest ih =>
    intro pk pts x hx
    rw [cpGo_cons] at hx
    rcases processPocketedBall_cases w h pockets b (cpGo w h pockets rest pk pts) with
      ⟨ht, hb, _, _⟩ | ⟨ht, hcue, hb, _, _⟩ | ⟨ht, hei, hb, _, _⟩ |
      ⟨ht, hso, hb, _, _⟩ | ⟨ht, hcue, hei, hso, hb, _, _⟩
    · rw [hb] at hx
      rcases List.mem_cons.mp hx with hx1 | hx2
      · subst hx1
        exact Or.inr ⟨List.mem_cons_self _ _, ht⟩
      · rcases ih pk pts x hx2 with h1 | ⟨h2, h3⟩
        · exact Or.inl h1
        · exact Or.inr ⟨List.mem_cons_of_mem _ h2, h3⟩
    · rw [hb] at hx
      rcases List.mem_cons.mp hx with hx1 | hx2
      · exact Or.inl hx1
      · rcases ih pk pts x hx2 with h1 | ⟨h2, h3⟩
        · exact Or.inl h1
        · exact Or.inr ⟨List.mem_cons_of_mem _ h2, h3⟩
    · rw [hb] at hx
      rcases ih pk pts x hx with h1 | ⟨h2, h3⟩
      · exact Or.inl h1
      · exact Or.inr ⟨List.mem_cons_of_mem _ h2, h3⟩
    · rw [hb] at hx
      rcases ih pk pts x hx with h1 | ⟨h2, h3⟩
      · exact Or.inl h1
      · exact Or.inr ⟨List.mem_cons_of_mem _ h2, h3⟩
    · rw [hb] at hx
      rcases ih pk pts x hx with h1 | ⟨h2, h3⟩
      · exact Or.inl h1
      · exact Or.inr ⟨List.mem_cons_of_mem _ h2, h3⟩

/-- A pocketed cue ball flags the scratch and puts the respawned cue ball
into the active set. -/
theorem cpGo_cue_respawn (w h : ℚ) (pockets : List Pocket) :
    ∀ (balls : List Ball) (pk : Pocketed) (pts : PocketedThisShot) (b : Ball),
      b ∈ balls → b.type = "cue" → ballPocketTest w h pockets b = true →
      (cpGo w h pockets balls pk pts).pocketedThisShot.cueBall = true ∧
      newCueBall h ∈ (cpGo w h pockets balls pk pts).balls := by
  intro balls
  induction balls with
  | nil =>
    intro pk pts b hb
    simp at hb
  | cons c rest ih =>
    intro pk pts b hb htype htest
    rw [cpGo_cons]
    rcases List.mem_cons.mp hb with hb1 | hb2
    · subst hb1
      rcases processPocketedBall_cases w h pockets b (cpGo w h pockets rest pk pts) with
        ⟨ht, _, _, _⟩ | ⟨ht, hcue, hballs, _, hq⟩ | ⟨ht, hei, _, _, _⟩ |
        ⟨ht, hso, _, _, _⟩ | ⟨ht, hcue, hei, hso, _, _, _⟩
      · rw [htest] at ht; exact absurd ht (by simp)
      · rw [hq, hballs]
        exact ⟨rfl, List.mem_cons_self _ _⟩
      · rw [htype] at hei; exact absurd hei (by decide)
      · rw [htype] at hso; exact absurd hso (by decide)
      · exact absurd htype hcue
    · obtain ⟨ihc, ihm⟩ := ih pk pts b hb2 htype htest
      rcases processPocketedBall_cases w h pockets c (cpGo w h pockets rest pk pts) with
        ⟨ht, hballs, _, hq⟩ | ⟨ht, hcue, hballs, _, hq⟩ | ⟨ht, hei, hballs, _, hq⟩ |
        ⟨ht, hso, hballs, _, hq⟩ | ⟨ht, hcue, hei, hso, hballs, _, hq⟩
      · rw [hq, hballs]
        exact ⟨ihc, List.mem_cons_of_mem _ ihm⟩
      · rw [hq, hballs]
        exact ⟨rfl, List.mem_cons_of_mem _ ihm⟩
      · rw [hq, hballs]
        exact ⟨ihc, ihm⟩
      · rw [hq, hballs]
        exact ⟨ihc, ihm⟩
      · rw [hq, hballs]
        exact ⟨ihc, ihm⟩

/-- A pocketed numbered ball is recorded: solids and stripes land in both
the running pocketed state and the per-shot tally, the eight ball sets
the eight flag. -/
theorem cpGo_numbered_recorded (w h : ℚ) (pockets : List Pocket) :
    ∀ (balls : List Ball) (pk : Pocketed) (pts : PocketedThisShot) (b : Ball),
      b ∈ balls → ballPocketTest w h pockets b = true →
      (b.type = "solid" →
        b.number ∈ (cpGo w h pockets balls pk pts).pocketed.solids ∧
        b.number ∈ (cpGo w h pockets balls pk pts).pocketedThisShot.solids) ∧
      (b.type = "stripe" →
        b.number ∈ (cpGo w h pockets balls pk pts).pocketed.stripes ∧
        b.number ∈ (cpGo w h pockets balls pk pts).pocketedThisShot.stripes) ∧
      (b.type = "eight" → (cpGo w h pockets balls pk pts).pocketed.eight = true) := by
  intro balls
  induction balls with
  | nil =>
    intro pk pts b hb
    simp at hb
  | cons c rest ih =>
    intro pk pts b hb htest
    rw [cpGo_cons]
    rcases List.mem_cons.mp hb with hb1 | hb2
    · subst hb1
      rcases processPocketedBall_cases w h pockets b (cpGo w h pockets rest pk pts) with
        ⟨ht, _, _, _⟩ | ⟨ht, hcue, _, hp, hq⟩ | ⟨ht, hei, _, hp, hq⟩ |
        ⟨ht, hso, _, hp, hq⟩ | ⟨ht, hcue, hei, hso, _, hp, hq⟩
      · rw [htest] at ht; exact absurd ht (by simp)
      · refine ⟨fun hty => ?_, fun hty => ?_, fun hty => ?_⟩ <;>
          rw [hcue] at hty <;> exact absurd hty (by decide)
      · refine ⟨fun hty => ?_, fun hty => ?_, fun _ => ?_⟩
        · rw [hei] at hty; exact absurd hty (by decide)
        · rw [hei] at hty; exact absurd hty (by decide)
        · rw [hp]
      · refine ⟨fun _ => ?_, fun hty => ?_, fun hty => ?_⟩
        · rw [hp, hq]
          constructor <;> simp
        · rw [hso] at hty; exact absurd hty (by decide)
        · rw [hso] at hty; exact absurd hty (by decide)
      · refine ⟨fun hty => absurd hty hso, fun _ => ?_, fun hty => absurd hty hei⟩
        rw [hp, hq]
        constructor <;> simp
    · obtain ⟨ihs, ihst, ihe⟩ := ih pk pts b hb2 htest
      rcases processPocketedBall_cases w h pockets c (cpGo w h pockets rest pk pts) with
        ⟨ht, _, hp, hq⟩ | ⟨ht, hcue, _, hp, hq⟩ | ⟨ht, hei, _, hp, hq⟩ |
        ⟨ht, hso, _, hp, hq⟩ | ⟨ht, hcue, hei, hso, _, hp, hq⟩ <;>
        rw [hp, hq] <;>
        refine ⟨fun hty => ?_, fun hty => ?_, fun hty => ?_⟩
      · exact ihs hty
      · exact ihst hty
      · exact ihe hty
      · exact ihs hty
      · exact ihst hty
      · exact ihe hty
      · exact ihs hty
      · exact ihst hty
      · exact rfl
      · exact ⟨List.mem_append_left _ (ihs hty).1, List.mem_append_left _ (ihs hty).2⟩
      · exact ihst hty
      · exact ihe hty
      · exact ihs hty
      · exact ⟨List.mem_append_left _ (ihst hty).1, List.mem_append_left _ (ihst hty).2⟩
      · exact ihe hty

/-- C8: `checkPockets` preserves the cue-ball count among the active
balls (so exactly one cue ball stays exactly one); the running pocketed
lists are append-only and the eight flag monotone; a pocketed cue ball
sets the scratch flag and is replaced by the respawned cue ball at the
head spot with zero linear and angular velocity (the `newCueBall`
definition); a pocketed non-cue ball leaves the active set; and pocketed
solids, stripes and the eight ball are recorded in the running state, the
per-shot tally, and the eight flag respectively. -/
theorem c8_checkPockets_invariants (w h : ℚ) (pockets : List Pocket)
    (balls : List Ball) (pk : Pocketed) (pts : PocketedThisShot) :
    countCue (checkPockets w h pockets balls pk pts).balls = countCue balls ∧
    (∃ ds, (checkPockets w h pockets balls pk pts).pocketed.solids = pk.solids ++ ds) ∧
    (∃ dt, (checkPockets w h pockets balls pk pts).pocketed.stripes = pk.stripes ++ dt) ∧
    (pk.eight = true → (checkPockets w h pockets balls pk pts).pocketed.eight = true) ∧
    (∀ b ∈ balls, b.type = "cue" → ballPocketTest w h pockets b = true →
      (checkPockets w h pockets balls pk pts).pocketedThisShot.cueBall = true ∧
      newCueBall h ∈ (checkPockets w h pockets balls pk pts).balls) ∧
    (∀ b ∈ balls, ¬b.type = "cue" → ballPocketTest w h pockets b = true →
      b ∉ (checkPockets w h pockets balls pk pts).balls) ∧
    (∀ b ∈ balls, b.type = "solid" → ballPocketTest w h pockets b = true →
      b.number ∈ (checkPockets w h pockets balls pk pts).pocketed.solids ∧
      b.number ∈ (checkPockets w h pockets balls pk pts).pocketedThisShot.solids) ∧
    (∀ b ∈ balls, b.type = "stripe" → ballPocketTest w h pockets b = true →
      b.number ∈ (checkPockets w h pockets balls pk pts).pocketed.stripes ∧
      b.number ∈ (checkPockets w h pockets balls pk pts).pocketedThisShot.stripes) ∧
    (∀ b ∈ balls, b.type = "eight" → ballPocketTest w h pockets b = true →
      (checkPockets w h pockets balls pk pts).pocketed.eight = true) := by
  obtain ⟨hds, hdt, he8, _, _, _⟩ := cpGo_extends w h pockets balls pk pts
  refine ⟨cpGo_countCue w h pockets balls pk pts, hds, hdt, he8, ?_, ?_, ?_, ?_, ?_⟩
  · intro b hb htype htest
    exact cpGo_cue_respawn w h pockets balls pk pts b hb htype htest
  · intro b hb htype htest hmem
    rcases cpGo_mem_shape w h pockets balls pk pts b hmem with h1 | ⟨_, h3⟩
    · exact htype (by rw [h1]; rfl)
    · rw [htest] at h3; exact absurd h3 (by simp)
  · intro b hb htype htest
    exact ((cpGo_numbered_recorded w h pockets balls pk pts b hb htest).1) htype
  · intro b hb htype htest
    exact ((cpGo_numbered_recorded w h pockets balls pk pts b hb htest).2.1) htype
  · intro b hb htype htest
    exact ((cpGo_numbered_recorded w h pockets balls pk pts b hb htest).2.2) htype

/-- Witness for C8: the four-ball world on the 1200 x 700 table; the
scratch is flagged, the fresh cue ball is active, solid 2 leaves the
active set and is recorded, stripe 9 is recorded via the out-of-bounds
fallback, and the eight flag is set. -/
theorem c8_checkPockets_invariants_witness :
    (checkPockets 1200 700 (setupTablePockets 1200 700) c8balls emptyPocketed
      ⟨[], [], false⟩).pocketedThisShot.cueBall = true ∧
    newCueBall 700 ∈ (checkPockets 1200 700 (setupTablePockets 1200 700) c8balls
      emptyPocketed ⟨[], [], false⟩).balls ∧
    c8solid ∉ (checkPockets 1200 700 (setupTablePockets 1200 700) c8balls
      emptyPocketed ⟨[], [], false⟩).balls ∧
    (2 : ℤ) ∈ (checkPockets 1200 700 (setupTablePockets 1200 700) c8balls
      emptyPocketed ⟨[], [], false⟩).pocketed.solids ∧
    (2 : ℤ) ∈ (checkPockets 1200 700 (setupTablePockets 1200 700) c8balls
      emptyPocketed ⟨[], [], false⟩).pocketedThisShot.solids ∧
    (9 : ℤ) ∈ (checkPockets 1200 700 (setupTablePockets 1200 700) c8balls
      emptyPocketed ⟨[], [], false⟩).pocketed.stripes ∧
    (9 : ℤ) ∈ (checkPockets 1200 700 (setupTablePockets 1200 700) c8balls
      emptyPocketed ⟨[], [], false⟩).pocketedThisShot.stripes ∧
    (checkPockets 1200 700 (setupTablePockets 1200 700) c8balls emptyPocketed
      ⟨[], [], false⟩).pocketed.eight = true := by
  obtain ⟨-, -, -, -, hcue, hrem, hsol, hstr, hei⟩ :=
    c8_checkPockets_invariants 1200 700 (setupTablePockets 1200 700) c8balls
      emptyPocketed ⟨[], [], false⟩
  have hc : c8cue ∈ c8balls := by simp [c8balls]
  have hs : c8solid ∈ c8balls := by simp [c8balls]
  have hst : c8stripe ∈ c8balls := by simp [c8balls]
  have he : c8eight ∈ c8balls := by simp [c8balls]
  have tc : ballPocketTest 1200 700 (setupTablePockets 1200 700) c8cue = true := by
    with_unfolding_all decide
  have ts : ballPocketTest 1200 700 (setupTablePockets 1200 700) c8solid = true := by
    with_unfolding_all decide
  have tst : ballPocketTest 1200 700 (setupTablePockets 1200 700) c8stripe = true := by
    with_unfolding_all decide
  have te : ballPocketTest 1200 700 (setupTablePockets 1200 700) c8eight = true := by
    with_unfolding_all decide
  obtain ⟨h1, h2⟩ := hcue c8cue hc rfl tc
  obtain ⟨h4, h5⟩ := hsol c8solid hs rfl ts
  obtain ⟨h6, h7⟩ := hstr c8stripe hst rfl tst
  exact ⟨h1, h2, hrem c8solid hs (by decide) ts, h4, h5, h6, h7, hei c8eight he rfl te⟩

end Pool
